import Mathlib

/-
Verification of the grpc_conn connection-supervisor package.

The package exists in three revisions inside the repository:
  * `conn.go`   — oldest: dial bounded by a ConnectTimeout context, serve-phase
                  select on the (shadowed, already cancelled) timeout context,
                  `Start` runs the loop synchronously inside `once.Do`;
  * `part_001`  — middle: loop spawned in a goroutine, serve select on the
                  outer context, gauge set on success, no attempt reset;
  * `part_000`  — newest: `grpc.NewClient`, connectivity-state watcher,
                  no gauge set and no attempt reset on success.
Definitions below are labelled with the revision they embed; `legacy*` names
embed `conn.go`, unqualified names embed the newest revision (`part_000`,
with `part_002` metrics and `part_003` pool).
-/

namespace GrpcConn

/-- A gRPC client connection handle (`*grpc.ClientConn`), abstract: only its
identity matters to the supervisor, which hands it out unchanged. -/
structure ClientConn where
  id : Nat
deriving DecidableEq

/-- Dial options are opaque transport configuration passed through to the
dial call; the package only ever stores and forwards them. -/
inductive DialOption
  | withBlock
  | withTransportCredentialsInsecure
  | withUnaryInterceptor
  | withStreamInterceptor
deriving DecidableEq

/-- The retry policy boundary (`retry.Retryer` from the external
`github.com/bredtape/retry` package): `Next(attempt) -> duration`.
Durations are modelled as natural numbers (milliseconds). -/
structure Retryer where
  next : Nat → Nat

/-- Modelled from the spec: the external backoff policy generator
`retry.Must(retry.NewExp(0.2, 1*time.Second, 5*time.Second))` — exponential
growth with floor 1s and ceiling 5s (jitter omitted; no claim depends on the
returned values, the supervisor uses the policy opaquely). -/
def backoff : Retryer := ⟨fun attempt => min (1000 * 2 ^ attempt) 5000⟩

/-- Options (`part_000` revision): retry policy plus opaque dial options. -/
structure Options where
  retryConnect : Retryer
  dialOptions : List DialOption

/-- `DefaultOptions` of the `part_000` revision. -/
def DefaultOptions : Options :=
  { retryConnect := backoff
    dialOptions := [DialOption.withUnaryInterceptor, DialOption.withStreamInterceptor] }

/-- `OptionsInsecure` of the `part_000` revision. -/
def OptionsInsecure : Options :=
  { retryConnect := backoff
    dialOptions := [DialOption.withTransportCredentialsInsecure,
                    DialOption.withUnaryInterceptor, DialOption.withStreamInterceptor] }

/-- The `Conn` structure: immutable identity and options (the mutable runtime
state — once guard and requests channel — is modelled separately). -/
structure Conn where
  name : String
  address : String
  options : Options

/-- `GetName`. -/
def Conn.GetName (c : Conn) : String := c.name

/-- `GetAddress`. -/
def Conn.GetAddress (c : Conn) : String := c.address

/-- `GetOptions`. -/
def Conn.GetOptions (c : Conn) : Options := c.options

/-- The three validation failures `New` can report. -/
inductive NewError
  | emptyName
  | invalidAddress
  | tooManyOptions
deriving DecidableEq

/-- Address validation of the `part_000` revision:
`strings.TrimSpace(address) == ""` rejects a blank address (Go whitespace set
approximated by `Char.isWhitespace`). The `conn.go` revision instead requires
`net.SplitHostPort(address)` (Go standard library) to succeed; both are
instances of the abstract endpoint validator that `New` below is
parameterised by. -/
def addressNonBlank (address : String) : Bool := !(address.trim == "")

/-- `New(name, address, opts...)`, parameterised by the endpoint validator
(`addressNonBlank` in `part_000`, success of `net.SplitHostPort` in
`conn.go`; the checks and their order are otherwise identical): reject an
empty name, then an invalid address, then more than one `Options`; otherwise
build the `Conn`, defaulting to `DefaultOptions` when no options are given. -/
def New (valid : String → Bool) (name address : String) (opts : List Options) :
    Except NewError Conn :=
  if name = "" then Except.error NewError.emptyName
  else if !valid address then Except.error NewError.invalidAddress
  else if opts.length > 1 then Except.error NewError.tooManyOptions
  else Except.ok
    { name := name
      address := address
      options := match opts with
        | [] => DefaultOptions
        | o :: _ => o }

/-- Runtime state touched by `Start`: the `sync.Once` guard and how many
times the guarded body (launching `loop`) has run. -/
structure StartState where
  started : Bool
  loopLaunches : Nat
deriving DecidableEq

/-- State of a freshly constructed `Conn`: loop not yet started. -/
def initialStartState : StartState := ⟨false, 0⟩

/-- One call of `Start`: `c.once.Do(func() { go c.loop(ctx) })` — the body
runs only if the once guard has not fired yet. -/
def Start (s : StartState) : StartState :=
  if s.started then s else { started := true, loopLaunches := s.loopLaunches + 1 }

/-- `N` consecutive calls of `Start` from the initial state. -/
def startN : Nat → StartState
  | 0 => initialStartState
  | n + 1 => Start (startN n)

/-- The caller context error returned by `ctx.Err()` when the context is
done: cancelled or deadline exceeded. -/
inductive CtxErr
  | canceled
  | deadlineExceeded
deriving DecidableEq

/-- What the requests channel looks like to a receiver: closed, a sender
(the loop) offering a connection, or nobody ready. -/
inductive ChanView
  | closed
  | offering (c : ClientConn)
  | silent
deriving DecidableEq

/-- Which case of the two-way select in `GetConnection` fired: the caller
`ctx.Done()`, a receive observing the closed channel (`ok == false`), or a
receive of an offered connection. -/
inductive SelectOutcome
  | ctxDone
  | recvClosed
  | recvValue (c : ClientConn)
deriving DecidableEq

/-- Go select semantics for `GetConnection`: a case may fire only if it is
ready — `ctx.Done()` only when the caller context is done; a receive yields
`ok == false` only on a closed channel and a value only while the loop is
offering it. -/
def selectEnabled (callerCtxDone : Bool) (ch : ChanView) : SelectOutcome → Bool
  | SelectOutcome.ctxDone => callerCtxDone
  | SelectOutcome.recvClosed =>
      match ch with
      | ChanView.closed => true
      | _ => false
  | SelectOutcome.recvValue c =>
      match ch with
      | ChanView.offering d => decide (c = d)
      | _ => false

/-- Result of one `GetConnection` call. -/
inductive GetConnResult
  | gotConn (c : ClientConn)
  | ctxError (e : CtxErr)
  | shutdown
deriving DecidableEq

/-- Body of `GetConnection` (identical in all three revisions), as a function
of which select case fired: `ctx.Done()` returns `ctx.Err()`; a receive with
`ok == false` returns `ErrShutdown`; otherwise the received connection. -/
def getConnectionResult (ctxErr : CtxErr) : SelectOutcome → GetConnResult
  | SelectOutcome.ctxDone => GetConnResult.ctxError ctxErr
  | SelectOutcome.recvClosed => GetConnResult.shutdown
  | SelectOutcome.recvValue c => GetConnResult.gotConn c

/-- Control position of the reconnect loop: about to dial with the current
attempt counter, waiting in the post-failure backoff select, serving a dialed
connection, or returned (the deferred `close(c.requests)` has run). -/
inductive LoopPhase
  | dialing (attempt : Nat)
  | backoffWait (attempt : Nat)
  | serving (conn : ClientConn)
  | exited
deriving DecidableEq

/-- Events the `part_000` loop reacts to: the dial returning, the outer
context becoming done inside a select, the backoff timer firing, and a
waiting `GetConnection` caller taking the offered connection. -/
inductive LoopEv
  | dialOk (conn : ClientConn)
  | dialErr
  | outerDone
  | backoffElapsed
  | handoff
deriving DecidableEq

/-- One transition of the `part_000` loop. From `dialing`, the dial result
decides between serving and the backoff select; the backoff select leaves on
`ctx.Done()` (return) or on the timer (redial with `attempt + 1`); the serve
select leaves only on `ctx.Done()` (return) and keeps serving after each
handoff. `none`: the event is impossible in that phase. -/
def stepApply : LoopPhase → LoopEv → Option LoopPhase
  | LoopPhase.dialing _, LoopEv.dialOk c => some (LoopPhase.serving c)
  | LoopPhase.dialing a, LoopEv.dialErr => some (LoopPhase.backoffWait a)
  | LoopPhase.backoffWait _, LoopEv.outerDone => some LoopPhase.exited
  | LoopPhase.backoffWait a, LoopEv.backoffElapsed => some (LoopPhase.dialing (a + 1))
  | LoopPhase.serving _, LoopEv.outerDone => some LoopPhase.exited
  | LoopPhase.serving c, LoopEv.handoff => some (LoopPhase.serving c)
  | _, _ => none

/-- The connections handed to a `GetConnection` caller by one transition:
only a `handoff` while serving sends on `c.requests`. -/
def offersOf : LoopPhase → LoopEv → List ClientConn
  | LoopPhase.serving c, LoopEv.handoff => [c]
  | _, _ => []

/-- Run the `part_000` loop over a list of events, collecting the handed-out
connections; `none` if some event is impossible in its phase. -/
def runLoop : LoopPhase → List LoopEv → Option (LoopPhase × List ClientConn)
  | p, [] => some (p, [])
  | p, e :: es =>
    match stepApply p e with
    | none => none
    | some q =>
      match runLoop q es with
      | none => none
      | some (r, offs) => some (r, offersOf p e ++ offs)

/-- Whether the deferred `close(c.requests)` has run: exactly when the loop
has returned. -/
def requestsClosed : LoopPhase → Bool
  | LoopPhase.exited => true
  | _ => false

/-- Whether the phase holds a dialed connection. -/
def hasConn : LoopPhase → Bool
  | LoopPhase.serving _ => true
  | _ => false

/-- Events of the `conn.go` (legacy) loop. It differs from `part_000` in the
serve phase: the serve select waits on the dial-timeout context `ctx`
(shadowing, inside the iteration) instead of the outer `appCtx`, so its exit
case is `dialCtxFired`. -/
inductive LegacyEv
  | dialOk (conn : ClientConn)
  | dialErr
  | outerDone
  | backoffElapsed
  | dialCtxFired
  | handoff
deriving DecidableEq

/-- One transition of the `conn.go` loop. The dial/backoff phases match
`part_000` (the backoff select does wait on `appCtx`); the serve select
returns when the dial-timeout context fires. -/
def legacyStepApply : LoopPhase → LegacyEv → Option LoopPhase
  | LoopPhase.dialing _, LegacyEv.dialOk c => some (LoopPhase.serving c)
  | LoopPhase.dialing a, LegacyEv.dialErr => some (LoopPhase.backoffWait a)
  | LoopPhase.backoffWait _, LegacyEv.outerDone => some LoopPhase.exited
  | LoopPhase.backoffWait a, LegacyEv.backoffElapsed => some (LoopPhase.dialing (a + 1))
  | LoopPhase.serving _, LegacyEv.dialCtxFired => some LoopPhase.exited
  | LoopPhase.serving c, LegacyEv.handoff => some (LoopPhase.serving c)
  | _, _ => none

/-- Doneness of the `conn.go` dial-timeout context
`ctx, cancel := context.WithTimeout(appCtx, ConnectTimeout)`: done when the
outer context is done, when `cancel()` has been called, or when the timeout
elapsed. `conn.go` calls `cancel()` unconditionally right after
`grpc.DialContext` returns, so in its serve phase `cancelCalled = true`. -/
def legacyDialCtxDone (outerDone cancelCalled timedOut : Bool) : Bool :=
  outerDone || cancelCalled || timedOut

/-- Go select readiness for the `conn.go` loop events: `outerDone` needs the
outer context done, `dialCtxFired` needs the dial-timeout context done, a
`handoff` needs a waiting receiver; dial results and the timer come from the
environment. -/
def legacyEvEnabled (outerDone cancelCalled timedOut recvReady : Bool) : LegacyEv → Bool
  | LegacyEv.outerDone => outerDone
  | LegacyEv.dialCtxFired => legacyDialCtxDone outerDone cancelCalled timedOut
  | LegacyEv.handoff => recvReady
  | _ => true

/-- Run the `conn.go` loop over a list of events (final phase only). -/
def legacyRun : LoopPhase → List LegacyEv → Option LoopPhase
  | p, [] => some p
  | p, e :: es =>
    match legacyStepApply p e with
    | none => none
    | some q => legacyRun q es

/-- The event trace of an environment in which every dial attempt fails, the
outer context is never done, and every backoff timer fires: `n` failed
attempts in a row. -/
def allFailTrace : Nat → List LegacyEv
  | 0 => []
  | n + 1 => LegacyEv.dialErr :: LegacyEv.backoffElapsed :: allFailTrace n

/-- `conn.go` runs the loop synchronously inside `once.Do`
(`c.once.Do(func() { c.loop(ctx) })` — no `go` statement), so its `Start`
has returned after a trace exactly when the loop has returned. -/
def legacyStartReturned (es : List LegacyEv) : Bool :=
  match legacyRun (LoopPhase.dialing 0) es with
  | some LoopPhase.exited => true
  | _ => false

/-- The per-connection metric state the loop writes: the two counters and
the `grpc_is_connected` gauge (`none` = this label was never set). -/
structure LoopMetrics where
  connAttempts : Nat
  connAttemptsError : Nat
  isConnected : Option Nat
deriving DecidableEq

/-- Attempt counter plus metric state at the top of a loop iteration. -/
structure DialState where
  attempt : Nat
  metrics : LoopMetrics
deriving DecidableEq

/-- Result of the dial. -/
inductive DialOutcome
  | ok (c : ClientConn)
  | err
deriving DecidableEq

/-- Outcome of one loop iteration: retry after waiting `wait`, or enter the
serve phase with a connection. -/
inductive DialStepResult
  | retryAfter (wait : Nat) (s : DialState)
  | connected (s : DialState) (conn : ClientConn)
deriving DecidableEq

/-- One dial iteration of the `part_000` loop: increment the attempts
counter; on failure increment the error counter, wait
`RetryConnect.Next(attempt)` and increment `attempt`; on success enter the
serve phase — `part_000` neither resets `attempt` nor touches the
`grpc_is_connected` gauge there. -/
def loopIterate (o : Options) (s : DialState) (res : DialOutcome) : DialStepResult :=
  let m1 : LoopMetrics := { s.metrics with connAttempts := s.metrics.connAttempts + 1 }
  match res with
  | DialOutcome.err =>
      DialStepResult.retryAfter (o.retryConnect.next s.attempt)
        { attempt := s.attempt + 1
          metrics := { m1 with connAttemptsError := m1.connAttemptsError + 1 } }
  | DialOutcome.ok c =>
      DialStepResult.connected { attempt := s.attempt, metrics := m1 } c

/-- One dial iteration of the `conn.go` loop: the failure path is identical
to `part_000`; on success `attempt = 0` and
`metric_grpc_is_connected.Set(1)`. -/
def legacyLoopIterate (o : Options) (s : DialState) (res : DialOutcome) : DialStepResult :=
  let m1 : LoopMetrics := { s.metrics with connAttempts := s.metrics.connAttempts + 1 }
  match res with
  | DialOutcome.err =>
      DialStepResult.retryAfter (o.retryConnect.next s.attempt)
        { attempt := s.attempt + 1
          metrics := { m1 with connAttemptsError := m1.connAttemptsError + 1 } }
  | DialOutcome.ok c =>
      DialStepResult.connected
        { attempt := 0, metrics := { m1 with isConnected := some 1 } } c

/-- `k` consecutive failed dial iterations of the `part_000` loop: final
state and the list of waits performed (the `conn.go` failure path is the
same function). -/
def failStreak (o : Options) : Nat → DialState → DialState × List Nat
  | 0, s => (s, [])
  | k + 1, s =>
    match loopIterate o s DialOutcome.err with
    | DialStepResult.retryAfter w s1 =>
        let r := failStreak o k s1
        (r.1, w :: r.2)
    | DialStepResult.connected s1 _ => (s1, [])

/-- The gRPC connectivity states, `google.golang.org/grpc/connectivity`. -/
inductive ConnectivityState
  | idle
  | connecting
  | ready
  | transientFailure
  | shutdown
deriving DecidableEq

/-- The numeric enumeration documented on the `grpc_connection_state` gauge
(`part_002`): Idle=0, Connecting=1, Ready=2, TransientFailure=3,
Shutdown=4. -/
def ConnectivityState.toNat : ConnectivityState → Nat
  | ConnectivityState.idle => 0
  | ConnectivityState.connecting => 1
  | ConnectivityState.ready => 2
  | ConnectivityState.transientFailure => 3
  | ConnectivityState.shutdown => 4

/-- The `for conn.WaitForStateChange(ctx, state)` loop of
`watchConnectionState` (`part_000`). The handle is modelled by the list of
states `conn.GetState()` yields after each `true` return of
`WaitForStateChange`; the list ending is the wait call returning `false`
(context cancelled or handle closed). The first argument is the last
observed state threaded into the next wait call. Returns the successive
values written to the `grpc_connection_state` gauge. -/
def watchStates : ConnectivityState → List ConnectivityState → List Nat
  | _, [] => []
  | _, s :: rest => ConnectivityState.toNat s :: watchStates s rest

/-- `watchConnectionState` (`part_000`): read and mirror the initial state,
then mirror each observed transition until the wait call returns `false`. -/
def watchConnectionStateGauge (s0 : ConnectivityState)
    (transitions : List ConnectivityState) : List Nat :=
  ConnectivityState.toNat s0 :: watchStates s0 transitions

/-- Insertion into the Go map `p.conns` (`p.conns[x.GetName()] = x`). -/
def mapInsert (m : String → Option Conn) (k : String) (v : Conn) :
    String → Option Conn :=
  fun q => if q = k then some v else m q

/-- The `Pool` (`part_003`): a map from name to `Conn`. -/
structure Pool where
  conns : String → Option Conn

/-- The map built by the range loop of `NewPool`: start from the empty map and
insert each `Conn` under its name in list order (a later duplicate name
overwrites an earlier entry). -/
def buildPool (xs : List Conn) : Pool :=
  { conns := xs.foldl (fun m x => mapInsert m x.GetName x) (fun _ => none) }

/-- `NewPool(xs ...*Conn) (*Pool, error)` (`part_003`): builds the map and
returns `(p, nil)` — there is no error path in its body. The first component
models the `*Pool` (`some` = non-nil), the second the `error` return
(`none` = nil). -/
def NewPool (xs : List Conn) : Option Pool × Option String :=
  (some (buildPool xs), none)

/-- `Pool.Get(name)` (`part_003`): the comma-ok map lookup. -/
def Pool.Get (p : Pool) (name : String) : Option Conn × Bool :=
  (p.conns name, (p.conns name).isSome)

/-- Helper: a transition of the `part_000` loop from a phase without a
connection, on an event that is not a successful dial, again reaches a phase
without a connection and hands out nothing. -/
theorem step_preserves_noConn {p q : LoopPhase} {e : LoopEv}
    (hp : hasConn p = false) (hne : ∀ c, e ≠ LoopEv.dialOk c)
    (hstep : stepApply p e = some q) : hasConn q = false ∧ offersOf p e = [] := by
  cases p with
  | serving c => exact absurd hp (by simp [hasConn])
  | exited => cases e <;> exact Option.noConfusion hstep
  | dialing a =>
    cases e with
    | dialOk c => exact absurd rfl (hne c)
    | dialErr =>
      have hq : LoopPhase.backoffWait a = q := Option.some.inj hstep
      subst hq
      exact ⟨rfl, rfl⟩
    | outerDone => exact Option.noConfusion hstep
    | backoffElapsed => exact Option.noConfusion hstep
    | handoff => exact Option.noConfusion hstep
  | backoffWait a =>
    cases e with
    | dialOk c => exact Option.noConfusion hstep
    | dialErr => exact Option.noConfusion hstep
    | outerDone =>
      have hq : LoopPhase.exited = q := Option.some.inj hstep
      subst hq
      exact ⟨rfl, rfl⟩
    | backoffElapsed =>
      have hq : LoopPhase.dialing (a + 1) = q := Option.some.inj hstep
      subst hq
      exact ⟨rfl, rfl⟩
    | handoff => exact Option.noConfusion hstep

/-- Helper: a run of the `part_000` loop that starts without a connection and
contains no successful dial hands out no connection. -/
theorem runLoop_no_offer_of_no_dialOk (es : List LoopEv) :
    ∀ p : LoopPhase, hasConn p = false →
      ∀ q offs, runLoop p es = some (q, offs) →
        (∀ c, LoopEv.dialOk c ∉ es) → offs = [] := by
  induction es with
  | nil =>
    intro p _ q offs hrun _
    simp only [runLoop, Option.some.injEq, Prod.mk.injEq] at hrun
    exact hrun.2.symm
  | cons e rest ih =>
    intro p hp q offs hrun hno
    simp only [runLoop] at hrun
    cases hstep : stepApply p e with
    | none =>
      simp only [hstep] at hrun
      exact Option.noConfusion hrun
    | some r =>
      simp only [hstep] at hrun
      cases hrec : runLoop r rest with
      | none =>
        simp only [hrec] at hrun
        exact Option.noConfusion hrun
      | some pr =>
        obtain ⟨r2, offs2⟩ := pr
        simp only [hrec, Option.some.injEq, Prod.mk.injEq] at hrun
        have hne : ∀ c, e ≠ LoopEv.dialOk c := fun c hc =>
          hno c (by rw [← hc]; exact List.mem_cons_self _ _)
        obtain ⟨hr, hoe⟩ := step_preserves_noConn hp hne hstep
        have h2 := ih r hr r2 offs2 hrec (fun c hc => hno c (List.mem_cons_of_mem _ hc))
        rw [← hrun.2, hoe, h2]
        rfl

/-- Helper: with the caller context live and the requests channel closed,
the only select case `GetConnection` can take yields `ErrShutdown`. -/
theorem closed_live_ctx_shutdown (e : CtxErr) (o : SelectOutcome)
    (h : selectEnabled false ChanView.closed o = true) :
    getConnectionResult e o = GetConnResult.shutdown := by
  cases o with
  | ctxDone => exact absurd h (by simp [selectEnabled])
  | recvClosed => rfl
  | recvValue c => exact absurd h (by simp [selectEnabled])

/-- Helper: running the `conn.go` loop in an environment where every dial
fails, every backoff timer fires and the outer context is never done leaves
it about to dial again, attempt counter advanced. -/
theorem legacyRun_allFailTrace (n : Nat) :
    ∀ a, legacyRun (LoopPhase.dialing a) (allFailTrace n) =
      some (LoopPhase.dialing (a + n)) := by
  induction n with
  | zero => intro a; rfl
  | succ k ih =>
    intro a
    show legacyRun (LoopPhase.dialing (a + 1)) (allFailTrace k) =
      some (LoopPhase.dialing (a + (k + 1)))
    have e : a + (k + 1) = (a + 1) + k := by omega
    rw [e]
    exact ih (a + 1)

/-- Helper: after `N ≥ 1` calls, the once guard of `Start` has fired and the loop
was launched exactly once. -/
theorem startN_eq (N : Nat) (h : 1 ≤ N) : startN N = ⟨true, 1⟩ := by
  induction N with
  | zero => exact absurd h (by decide)
  | succ n ih =>
    rcases Nat.eq_zero_or_pos n with h0 | h1
    · subst h0; rfl
    · show Start (startN n) = _
      rw [ih h1]
      rfl

/-- Helper: the waits of `k` consecutive failed dials are
`next(attempt), next(attempt+1), …` starting at the current attempt. -/
theorem failStreak_waits (o : Options) :
    ∀ (k : Nat) (s : DialState),
      (failStreak o k s).2 =
        (List.range k).map (fun i => o.retryConnect.next (s.attempt + i)) := by
  intro k
  induction k with
  | zero => intro s; rfl
  | succ m ih =>
    intro s
    have hs : (failStreak o (m + 1) s).2 =
        o.retryConnect.next s.attempt ::
          (failStreak o m
            { attempt := s.attempt + 1
              metrics := { connAttempts := s.metrics.connAttempts + 1
                           connAttemptsError := s.metrics.connAttemptsError + 1
                           isConnected := s.metrics.isConnected } }).2 := rfl
    rw [hs, ih, List.range_succ_eq_map, List.map_cons, List.map_map]
    refine congrArg₂ _ (by rw [Nat.add_zero]) ?_
    refine List.map_congr_left fun i _ => ?_
    show o.retryConnect.next (s.attempt + 1 + i) = o.retryConnect.next (s.attempt + (i + 1))
    exact congrArg o.retryConnect.next (by omega)

/-- Helper: the state-change loop of the watcher mirrors every state the
handle reports, in order, as its numeric gauge value. -/
theorem watchStates_map (tr : List ConnectivityState) :
    ∀ s, watchStates s tr = tr.map ConnectivityState.toNat := by
  induction tr with
  | nil => intro s; rfl
  | cons x rest ih =>
    intro s
    show ConnectivityState.toNat x :: watchStates x rest = _
    rw [ih x]
    rfl

/-- Helper: the map built by the insertion loop of `NewPool` looks a name up to
the last `Conn` of the construction list carrying it. -/
theorem buildMap_lookup (n : String) :
    ∀ (xs : List Conn) (m : String → Option Conn),
      (xs.foldl (fun acc x => mapInsert acc x.GetName x) m) n =
        (match xs.reverse.find? (fun x => x.GetName == n) with
          | some c => some c
          | none => m n) := by
  intro xs
  induction xs with
  | nil => intro m; rfl
  | cons x rest ih =>
    intro m
    show (rest.foldl _ (mapInsert m x.GetName x)) n = _
    rw [ih (mapInsert m x.GetName x), List.reverse_cons, List.find?_append]
    cases h : rest.reverse.find? (fun y => y.GetName == n) with
    | some c => simp [h]
    | none =>
      simp only [h, Option.none_orElse]
      by_cases heq : n = x.GetName
      · simp [List.find?, mapInsert, heq]
      · have hbeq : (x.GetName == n) = false := by
          rw [beq_eq_false_iff_ne]
          exact fun hx => heq hx.symm
        simp [List.find?, mapInsert, heq, hbeq]

/-- Claim C1, refuted for the `conn.go` revision: its serve-phase select
waits on the shadowed dial-timeout context (`ctx`, already cancelled by the
unconditional `cancel()` right after `grpc.DialContext`), not on the outer
`appCtx`. With the outer context live (`outerDone = false`) and `cancel()`
called, the exit case of the serve select is enabled while the genuine
outer-context case is not, and taking it terminates the loop — so the
reconnect loop can stop (and close the channel) without outer cancellation,
contradicting the claim. -/
theorem legacy_serve_exits_while_outer_live :
    legacyEvEnabled false true false false LegacyEv.dialCtxFired = true
    ∧ legacyEvEnabled false true false false LegacyEv.outerDone = false
    ∧ legacyStepApply (LoopPhase.serving ⟨0⟩) LegacyEv.dialCtxFired =
        some LoopPhase.exited
    ∧ requestsClosed LoopPhase.exited = true :=
  ⟨rfl, rfl, rfl, rfl⟩

/-- Claim C2: every `GetConnection` call returns exactly one of three
outcomes, determined by the select case that fired — the offered connection,
the own error of the caller context, or `ErrShutdown` on a closed channel; no
other result exists. -/
theorem GetConnection_trichotomy (e : CtxErr) (o : SelectOutcome) :
    (o = SelectOutcome.ctxDone ∧ getConnectionResult e o = GetConnResult.ctxError e)
    ∨ (o = SelectOutcome.recvClosed ∧ getConnectionResult e o = GetConnResult.shutdown)
    ∨ (∃ c, o = SelectOutcome.recvValue c ∧
        getConnectionResult e o = GetConnResult.gotConn c) := by
  cases o with
  | ctxDone => exact Or.inl ⟨rfl, rfl⟩
  | recvClosed => exact Or.inr (Or.inl ⟨rfl, rfl⟩)
  | recvValue c => exact Or.inr (Or.inr ⟨c, rfl, rfl⟩)

/-- Claim C3, amended: the loop hands out no connection before its first
successful dial; once exited no further transition (hence no handoff) is
possible and the requests channel is closed; and after the close every
`GetConnection` call whose own caller context is not already done returns
`ErrShutdown`, for unboundedly many calls. (A call whose own context is
already done may instead return its context error — see the
counterexample.) -/
theorem loop_handoff_lifecycle :
    (∀ es q offs, runLoop (LoopPhase.dialing 0) es = some (q, offs) →
        (∀ c, LoopEv.dialOk c ∉ es) → offs = [])
    ∧ (∀ e, stepApply LoopPhase.exited e = none)
    ∧ requestsClosed LoopPhase.exited = true
    ∧ (∀ (e : CtxErr) (picks : List SelectOutcome),
        (∀ o ∈ picks, selectEnabled false ChanView.closed o = true) →
        picks.map (getConnectionResult e) =
          List.replicate picks.length GetConnResult.shutdown) := by
  refine ⟨?_, ?_, rfl, ?_⟩
  · intro es q offs hrun hno
    exact runLoop_no_offer_of_no_dialOk es (LoopPhase.dialing 0) rfl q offs hrun hno
  · intro e
    cases e <;> rfl
  · intro e picks hall
    induction picks with
    | nil => rfl
    | cons o rest ih =>
      rw [List.map_cons, List.length_cons, List.replicate_succ,
        closed_live_ctx_shutdown e o (hall o (List.mem_cons_self _ _)),
        ih (fun o2 h2 => hall o2 (List.mem_cons_of_mem _ h2))]

/-- Witness for C3 at concrete inputs: a dial-fail/backoff run hands out
nothing, and one post-close call with a live caller context returns
`ErrShutdown`. -/
theorem loop_handoff_lifecycle_witness :
    ([] : List ClientConn) = [] ∧
    [SelectOutcome.recvClosed].map (getConnectionResult CtxErr.canceled) =
      List.replicate 1 GetConnResult.shutdown :=
  ⟨loop_handoff_lifecycle.1 [LoopEv.dialErr, LoopEv.backoffElapsed]
      (LoopPhase.dialing 1) [] rfl (fun c hc => by simp at hc),
   loop_handoff_lifecycle.2.2.2 CtxErr.canceled [SelectOutcome.recvClosed]
      (fun o ho => by
        simp only [List.mem_singleton] at ho
        rw [ho]
        rfl)⟩

/-- Counterexample to C3 as stated: after the channel is closed, a caller
whose own context is already done has the `ctx.Done()` select case enabled
too, and taking it returns the context error of the caller, not `ErrShutdown` —
so not every post-shutdown call returns `ErrShutdown`. -/
theorem getConnection_closed_ctx_counterexample :
    selectEnabled true ChanView.closed SelectOutcome.ctxDone = true
    ∧ getConnectionResult CtxErr.canceled SelectOutcome.ctxDone =
        GetConnResult.ctxError CtxErr.canceled
    ∧ GetConnResult.ctxError CtxErr.canceled ≠ GetConnResult.shutdown := by
  refine ⟨rfl, rfl, ?_⟩
  decide

/-- Claim C4: `New` fails exactly when the name is empty, the address fails
the endpoint validation, or more than one `Options` value is supplied; on
success the `Conn` carries the given name and address, and its options are
the supplied value, or `DefaultOptions` when none was supplied. -/
theorem New_validation_spec (valid : String → Bool) (name address : String)
    (opts : List Options) :
    ((∃ e, New valid name address opts = Except.error e) ↔
      (name = "" ∨ valid address = false ∨ opts.length > 1))
    ∧ (∀ c, New valid name address opts = Except.ok c →
        c.GetName = name ∧ c.GetAddress = address ∧
        c.GetOptions = (match opts with | [] => DefaultOptions | o :: _ => o)) := by
  unfold New
  split_ifs with h1 h2 h3
  · exact ⟨⟨fun _ => Or.inl h1, fun _ => ⟨NewError.emptyName, rfl⟩⟩,
      fun c hc => by cases hc⟩
  · refine ⟨⟨fun _ => Or.inr (Or.inl ?_), fun _ => ⟨NewError.invalidAddress, rfl⟩⟩,
      fun c hc => by cases hc⟩
    simpa using h2
  · exact ⟨⟨fun _ => Or.inr (Or.inr h3), fun _ => ⟨NewError.tooManyOptions, rfl⟩⟩,
      fun c hc => by cases hc⟩
  · refine ⟨⟨fun he => ?_, fun hd => ?_⟩, fun c hc => ?_⟩
    · obtain ⟨e, he⟩ := he
      cases he
    · rcases hd with hd | hd | hd
      · exact absurd hd h1
      · exact absurd (by simp [hd]) h2
      · exact absurd hd h3
    · cases hc
      exact ⟨rfl, rfl, rfl⟩

/-- Witness for C4 at a concrete input, with the part_000 address
validator. -/
theorem New_validation_spec_witness :
    Conn.GetName ⟨"a", "h:1", DefaultOptions⟩ = "a"
    ∧ Conn.GetAddress ⟨"a", "h:1", DefaultOptions⟩ = "h:1"
    ∧ Conn.GetOptions ⟨"a", "h:1", DefaultOptions⟩ = DefaultOptions :=
  (New_validation_spec (fun a => !(a == "")) "a" "h:1" []).2
    ⟨"a", "h:1", DefaultOptions⟩ rfl

/-- Claim C5: for every `N ≥ 1`, calling `Start` `N` times launches the loop
exactly once, and any further call is a no-op on the state. -/
theorem Start_idempotent (N : Nat) (h : 1 ≤ N) :
    (startN N).loopLaunches = 1 ∧ Start (startN N) = startN N := by
  rw [startN_eq N h]
  exact ⟨rfl, rfl⟩

/-- Witness for C5 at `N = 3`. -/
theorem Start_idempotent_witness :
    1 ≤ 3 ∧ ((startN 3).loopLaunches = 1 ∧ Start (startN 3) = startN 3) :=
  ⟨by decide, Start_idempotent 3 (by decide)⟩

/-- Claim C6, refuted for the `conn.go` revision: its `Start` runs the loop
synchronously inside `once.Do` (no `go` statement), so when every dial
attempt fails and the outer context is never done, the loop — and with it
`Start` — has not returned after any number of attempts. -/
theorem legacy_Start_blocks_when_dials_fail (n : Nat) :
    legacyStartReturned (allFailTrace n) = false := by
  unfold legacyStartReturned
  rw [legacyRun_allFailTrace n 0]

/-- Claim C7, amended: in both revisions each dial failure increments the
error counter, waits `retryPolicy.next(attempt)` and then increments
`attempt`, so after `k` consecutive failures from attempt 0 the waits are
`next(0), …, next(k−1)`; on a successful dial the `conn.go` revision resets
`attempt` to 0 and sets the is-connected gauge to 1, while the `part_000`
revision leaves both untouched. -/
theorem loop_attempt_metrics_spec (o : Options) (s : DialState) (c : ClientConn)
    (k : Nat) :
    loopIterate o s DialOutcome.err =
      DialStepResult.retryAfter (o.retryConnect.next s.attempt)
        { attempt := s.attempt + 1
          metrics := { connAttempts := s.metrics.connAttempts + 1
                       connAttemptsError := s.metrics.connAttemptsError + 1
                       isConnected := s.metrics.isConnected } }
    ∧ (failStreak o k { attempt := 0, metrics := s.metrics }).2 =
        (List.range k).map o.retryConnect.next
    ∧ legacyLoopIterate o s (DialOutcome.ok c) =
        DialStepResult.connected
          { attempt := 0
            metrics := { connAttempts := s.metrics.connAttempts + 1
                         connAttemptsError := s.metrics.connAttemptsError
                         isConnected := some 1 } } c
    ∧ loopIterate o s (DialOutcome.ok c) =
        DialStepResult.connected
          { attempt := s.attempt
            metrics := { s.metrics with connAttempts := s.metrics.connAttempts + 1 } } c := by
  refine ⟨rfl, ?_, rfl, rfl⟩
  rw [failStreak_waits o k]
  simp

/-- Counterexample to C7 as stated: in the `part_000` revision (the first
source the claim cites) a successful dial at attempt 3 leaves the attempt
counter at 3 and never sets the is-connected gauge. -/
theorem loop_success_counterexample :
    loopIterate DefaultOptions ⟨3, ⟨5, 3, none⟩⟩ (DialOutcome.ok ⟨0⟩) =
      DialStepResult.connected ⟨3, ⟨6, 3, none⟩⟩ ⟨0⟩
    ∧ ¬ ∃ s1, loopIterate DefaultOptions ⟨3, ⟨5, 3, none⟩⟩ (DialOutcome.ok ⟨0⟩) =
        DialStepResult.connected s1 ⟨0⟩
        ∧ s1.attempt = 0 ∧ s1.metrics.isConnected = some 1 := by
  refine ⟨rfl, ?_⟩
  rintro ⟨s1, h1, h2, h3⟩
  have hs : DialStepResult.connected (⟨3, ⟨6, 3, none⟩⟩ : DialState) ⟨0⟩ =
      DialStepResult.connected s1 ⟨0⟩ := h1
  cases hs
  exact absurd h2 (by decide)

/-- Claim C8: `Get(name)` on a pool built from a list of `Conn`s returns
`found = false` for a name none of them carries, and for a registered name
returns the last `Conn` of the list carrying it, with `found = true`. -/
theorem Pool_Get_spec (xs : List Conn) (n : String) :
    ((∀ c ∈ xs, c.GetName ≠ n) → Pool.Get (buildPool xs) n = (none, false))
    ∧ (∀ c, xs.reverse.find? (fun x => x.GetName == n) = some c →
        Pool.Get (buildPool xs) n = (some c, true)) := by
  constructor
  · intro hall
    have hfind : xs.reverse.find? (fun x => x.GetName == n) = none := by
      rw [List.find?_eq_none]
      intro a ha
      intro hbeq
      exact hall a (List.mem_reverse.mp ha) (eq_of_beq hbeq)
    show ((xs.foldl (fun acc x => mapInsert acc x.GetName x) (fun _ => none)) n,
        ((xs.foldl (fun acc x => mapInsert acc x.GetName x) (fun _ => none)) n).isSome) =
      (none, false)
    rw [buildMap_lookup n xs, hfind]
    rfl
  · intro c hc
    show ((xs.foldl (fun acc x => mapInsert acc x.GetName x) (fun _ => none)) n,
        ((xs.foldl (fun acc x => mapInsert acc x.GetName x) (fun _ => none)) n).isSome) =
      (some c, true)
    rw [buildMap_lookup n xs, hc]
    rfl

/-- Witness for C8: a pool over names `a, b, a` (duplicate name `a`) at the
absent name `z` and at the duplicated name `a` (last entry wins). -/
theorem Pool_Get_spec_witness :
    Pool.Get (buildPool [⟨"a", "u:1", DefaultOptions⟩, ⟨"b", "v:1", DefaultOptions⟩,
        ⟨"a", "w:1", DefaultOptions⟩]) "z" = (none, false)
    ∧ Pool.Get (buildPool [⟨"a", "u:1", DefaultOptions⟩, ⟨"b", "v:1", DefaultOptions⟩,
        ⟨"a", "w:1", DefaultOptions⟩]) "a" = (some ⟨"a", "w:1", DefaultOptions⟩, true) :=
  ⟨(Pool_Get_spec _ "z").1 (by
      intro c hc
      simp only [List.mem_cons, List.not_mem_nil, or_false] at hc
      rcases hc with rfl | rfl | rfl <;> decide),
   (Pool_Get_spec _ "a").2 ⟨"a", "w:1", DefaultOptions⟩ rfl⟩

/-- Claim C9: the watcher mirrors the current state of the handle as its numeric
gauge value — once initially and once per observed transition, in order —
and runs exactly one iteration per `true` return of the wait call,
terminating when it returns `false` (context cancelled or handle closed);
the numeric enumeration is Idle=0, Connecting=1, Ready=2,
TransientFailure=3, Shutdown=4. -/
theorem watch_gauge_mirrors_states (s0 : ConnectivityState)
    (tr : List ConnectivityState) :
    watchConnectionStateGauge s0 tr = (s0 :: tr).map ConnectivityState.toNat
    ∧ (watchConnectionStateGauge s0 tr).length = tr.length + 1
    ∧ ConnectivityState.toNat ConnectivityState.idle = 0
    ∧ ConnectivityState.toNat ConnectivityState.connecting = 1
    ∧ ConnectivityState.toNat ConnectivityState.ready = 2
    ∧ ConnectivityState.toNat ConnectivityState.transientFailure = 3
    ∧ ConnectivityState.toNat ConnectivityState.shutdown = 4 := by
  have h : watchConnectionStateGauge s0 tr = (s0 :: tr).map ConnectivityState.toNat := by
    show ConnectivityState.toNat s0 :: watchStates s0 tr = _
    rw [watchStates_map tr s0]
    rfl
  refine ⟨h, ?_, rfl, rfl, rfl, rfl, rfl⟩
  rw [h]
  simp

/-- Claim C10: `NewPool` never fails — for every list of `Conn`s (empty and
duplicate-name lists included) it returns a non-nil pool and a nil error,
despite its error-returning signature. -/
theorem NewPool_never_fails (xs : List Conn) :
    ∃ p : Pool, NewPool xs = (some p, none) :=
  ⟨buildPool xs, rfl⟩

end GrpcConn
